import Mathlib

/-!
Verification of the pytomcat cluster deployer (`tomcat/deployer.py`).

The deployer is a single sequential orchestrator: conflict resolution
(`_clean_old_apps`), a memory guard (`_get_memory`, `_wait_for_free_mem`,
`_check_memory`), the deploy commands themselves, a convergence poller
(`_wait_for_apps`) and rollback (`undeploy`).  The external cluster client
(`TomcatCluster`) is modelled as an oracle: a `World` provides the snapshot
returned by each successive `webapp_status` read and the raw result of each
successive `find_pools_over` command.  Commands issued through
`run_command` are collected in a trace.  Python exceptions are modelled as
an `Option DeployError` outcome: `TomcatError` raises become typed
variants carrying the same data that the format strings interpolate, and
untyped crashes (`KeyError`, `NameError`) get their own variants.
-/

namespace Pytomcat

/-! ## Python string ordering

Python 2 compares `str` values bytewise, lexicographically.  `pyStrLtAux`
is that strict comparison on the character lists of Lean strings
(code points agree with bytes on ASCII, which is all the deployer
compares).  `pySorted` is an ascending sort under this order; for string
lists the ascending sort result is unique, so it agrees with Python's
`sorted`. -/

def pyStrLtAux : List Char → List Char → Bool
  | _, [] => false
  | [], _ :: _ => true
  | a :: as, b :: bs =>
    if a.toNat < b.toNat then true
    else if b.toNat < a.toNat then false
    else pyStrLtAux as bs

/-- The Python `<=` on strings, as a proposition: `a ≤ b` iff `¬ (b < a)`. -/
def pyLeP (a b : String) : Prop := pyStrLtAux b.data a.data = false

instance : DecidableRel pyLeP :=
  fun a b => inferInstanceAs (Decidable (pyStrLtAux b.data a.data = false))

/-- Python's `sorted` on a list of strings (ascending, lexicographic). -/
def pySorted (l : List String) : List String := List.insertionSort pyLeP l

/-- `sorted([ctx] + paths[path])[-1]` from `_clean_old_apps`: Tomcat's
"latest version" tie-break.  The default of `getLastD` is never used
because the sorted list is a permutation of the nonempty `ctx :: bucket`. -/
def latestOf (ctx : String) (bucket : List String) : String :=
  (pySorted (ctx :: bucket)).getLastD ctx

/-- `sorted(paths[path])[:-1]` from `_clean_old_apps`: every version but
the newest. -/
def oldAppsOf (bucket : List String) : List String :=
  (pySorted bucket).dropLast

/-! ## Data model

`AppStatus` is one entry of the cluster-wide `webapp_status` result: the
aggregated fields the deployer reads (`path`, `coherent`, `stateName`,
`presentOn`) plus the per-node `clusterDetails.path` map. -/

structure AppStatus where
  path : String
  coherent : Bool
  stateName : String
  presentOn : List String
  clusterPaths : List (String × String)
deriving DecidableEq

/-- One proposed deployment unit: an entry of the `new_apps` dictionary,
`filename ↦ (context, path, version)` as produced by `parse_warfiles`. -/
structure NewApp where
  file : String
  ctx : String
  path : String
  ver : Option String
deriving DecidableEq

/-- A command issued to the cluster client through `run_command`. -/
inductive Cmd where
  | expire_sessions (ctx : String)
  | undeploy_old_versions
  | find_pools_over (threshold : Nat) (hosts : Option (List String))
  | run_gc (hosts : List String)
  | deploy_cmd (file ctx : String)
  | undeploy_cmd (ctx : String)
deriving DecidableEq

/-- The exceptional outcomes of the deployer.  `TomcatError` raises are
typed by the data their message interpolates; `keyError` and `nameError`
model untyped Python `KeyError` / `NameError` crashes. -/
inductive DeployError where
  | contextCollision (ctx : String) (nodes : List String)
  | pathCollision (path : String) (ctxs : List String)
  | keyError (key : String)
  | superseded (newer : String) (path : String) (ctx : String)
  | ambiguousVersions (path : String) (ctxs : List String)
  | insufficientMemory (hosts : List String)
  | deploymentFailed (ctxs : List String)
  | nameError
deriving DecidableEq

def isContextCollision : DeployError → Bool
  | .contextCollision _ _ => true
  | _ => false

def isDeployCmd : Cmd → Bool
  | .deploy_cmd _ _ => true
  | _ => false

/-- The `ClusterDeployer` configuration options (class attributes of
`ClusterDeployer`, overridable through `opts`). -/
structure Config where
  undeploy_on_error : Bool := true
  poll_interval : Nat := 5
  deploy_wait_time : Nat := 30
  gc_wait_time : Nat := 30
  required_memory : Nat := 50
  check_memory : Bool := true
  auto_gc : Bool := true
  kill_sessions : Bool := false
  auto_reboot : Bool := false
deriving DecidableEq

/-- The external cluster, as an oracle: `reads k` is the snapshot returned
by the k-th `webapp_status` query, `pools k` the raw per-node result of the
k-th `find_pools_over` command. -/
structure World where
  reads : Nat → List (String × AppStatus)
  pools : Nat → List (String × List String)

/-! ## Cluster status views (`_get_webapps`)

`_get_webapps` returns the status dictionary `stats` together with two
derived multimaps: `paths` maps each aggregated `path` to the contexts
serving it, and `all_paths` maps each per-node path to the nodes serving
it.  A Python dict-of-lists built with `setdefault(...).append(...)` is
modelled as the function from keys to (possibly empty) buckets; a key is
"in" the dict iff its bucket is nonempty. -/

def lookupCtx : List (String × AppStatus) → String → Option AppStatus
  | [], _ => none
  | (k, v) :: rest, ctx => if k = ctx then some v else lookupCtx rest ctx

/-- The `paths` bucket of one url path: every context whose aggregated
`path` equals `p`, in status order (`paths.setdefault(d['path'], []).append(a)`). -/
def pathsOf (stats : List (String × AppStatus)) (p : String) : List String :=
  (stats.filter (fun ad => ad.2.path == p)).map Prod.fst

/-- The `all_paths` bucket of one url path: every node on which some
context serves `p` according to the per-node `clusterDetails.path` detail. -/
def allPathNodes (stats : List (String × AppStatus)) (p : String) : List String :=
  stats.flatMap (fun ad => (ad.2.clusterPaths.filter (fun kv => kv.2 == p)).map Prod.fst)

/-! ## Conflict resolver (`_clean_old_apps`, `_undeploy_old_versions`)

`_clean_old_apps` reads the cluster status once, then checks each proposed
unit against that snapshot, retiring old versions where needed.
`_undeploy_old_versions` issues commands and re-reads the status, so the
running state is the index of the next unused read plus the command trace.
The outcome pairs the state reached with the exception raised, if any
(commands issued before a raise are kept). -/

structure CleanSt where
  readIdx : Nat
  cmds : List Cmd
deriving DecidableEq

/-- The state `_undeploy_old_versions` leaves behind: one more status
read consumed, the optional session-expiry commands and the cluster-wide
`undeploy_old_versions` command appended. -/
def afterUndeployOld (kill : Bool) (apps : List String) (st : CleanSt) : CleanSt :=
  ⟨st.readIdx + 1,
   st.cmds ++ (if kill then apps.map Cmd.expire_sessions else []) ++ [Cmd.undeploy_old_versions]⟩

def undeploy_old_versions_run (reads : Nat → List (String × AppStatus)) (kill : Bool)
    (p : String) (apps : List String) (st : CleanSt) : CleanSt × Option DeployError :=
  if (pathsOf (reads st.readIdx) p).isEmpty then
    (afterUndeployOld kill apps st, some (.keyError p))
  else if 1 < (pathsOf (reads st.readIdx) p).length then
    (afterUndeployOld kill apps st, some (.ambiguousVersions p (pathsOf (reads st.readIdx) p)))
  else (afterUndeployOld kill apps st, none)

/-- The body of the `for ctx, path, ver in new_apps.values()` loop of
`_clean_old_apps`, on one unit.  Note two faithful oddities of the source:
the partial-deployment branch and the unversioned-collision branch both
interpolate `paths[path]` into their message, which raises `KeyError` when
the path has no bucket in `paths`; and the newest-version bookkeeping only
happens when the bucket holds at least two contexts. -/
def cleanUnit (reads : Nat → List (String × AppStatus)) (kill : Bool)
    (snap0 : List (String × AppStatus)) (u : NewApp) (st : CleanSt) :
    CleanSt × Option DeployError :=
  match lookupCtx snap0 u.ctx with
  | some a => (st, some (.contextCollision u.ctx a.presentOn))
  | none =>
    if (allPathNodes snap0 u.path).isEmpty then (st, none)
    else
      match u.ver with
      | none =>
        if (pathsOf snap0 u.path).isEmpty then (st, some (.keyError u.path))
        else (st, some (.pathCollision u.path (pathsOf snap0 u.path)))
      | some _ =>
        if (pathsOf snap0 u.path).isEmpty then (st, some (.keyError u.path))
        else if 1 < (pathsOf snap0 u.path).length then
          if u.ctx = latestOf u.ctx (pathsOf snap0 u.path) then
            undeploy_old_versions_run reads kill u.path (oldAppsOf (pathsOf snap0 u.path)) st
          else (st, some (.superseded (latestOf u.ctx (pathsOf snap0 u.path)) u.path u.ctx))
        else (st, none)

def cleanLoop (reads : Nat → List (String × AppStatus)) (kill : Bool)
    (snap0 : List (String × AppStatus)) :
    CleanSt → List NewApp → CleanSt × Option DeployError
  | st, [] => (st, none)
  | st, u :: rest =>
    match cleanUnit reads kill snap0 u st with
    | (st1, some e) => (st1, some e)
    | (st1, none) => cleanLoop reads kill snap0 st1 rest

def clean_old_apps (reads : Nat → List (String × AppStatus)) (kill : Bool)
    (apps : List NewApp) : CleanSt × Option DeployError :=
  cleanLoop reads kill (reads 0) ⟨1, []⟩ apps

/-! ## Memory guard (`_get_memory`, `_wait_for_free_mem`, `_check_memory`) -/

def ignore_pools : List String := ["Par Eden Space", "Par Survivor Space"]

/-- The filtering step of `_get_memory`: keep only nodes that still have a
non-noise pool over the threshold.  The raw `find_pools_over` result comes
from the external cluster. -/
def get_memory (rv : List (String × List String)) : List (String × List String) :=
  rv.filter (fun kv => !(kv.2.filter (fun x => !(decide (x ∈ ignore_pools)))).isEmpty)

/-- The polling loop of `_wait_for_free_mem`.  `k` indexes the successive
`find_pools_over` results, `waitTotal` is the accumulated wait so far and
`slept` the accumulated sleep time; each iteration issues one
`find_pools_over` command.  `none` models non-termination (never reached
for a positive poll interval and sufficient fuel). -/
def wait_free_loop (pools : Nat → List (String × List String)) (thr : Nat)
    (hosts : List String) (gcWait poll : Nat) :
    Nat → Nat → Nat → Nat → List Cmd → Option (Bool × Nat × List Cmd)
  | 0, _, _, _, _ => none
  | fuel + 1, k, waitTotal, slept, cs =>
    if (get_memory (pools k)).isEmpty then
      some (true, slept, cs ++ [Cmd.find_pools_over thr (some hosts)])
    else if gcWait < waitTotal then
      some (false, slept, cs ++ [Cmd.find_pools_over thr (some hosts)])
    else
      wait_free_loop pools thr hosts gcWait poll fuel (k + 1) (waitTotal + poll) (slept + poll)
        (cs ++ [Cmd.find_pools_over thr (some hosts)])

/-- `_check_memory`: one memory query; on shortage, optionally GC and poll
within the `gc_wait_time` budget; raise `InsufficientMemory` naming the
initially offending hosts when the budget expires.  Returns the command
trace, the raised error if any, and the total simulated sleep. -/
def check_memory_run (pools : Nat → List (String × List String)) (cfg : Config) :
    Option (List Cmd × Option DeployError × Nat) :=
  if (get_memory (pools 0)).isEmpty then
    some ([Cmd.find_pools_over (100 - cfg.required_memory) none], none, 0)
  else if cfg.auto_gc then
    match wait_free_loop pools (100 - cfg.required_memory)
        ((get_memory (pools 0)).map Prod.fst) cfg.gc_wait_time cfg.poll_interval
        (cfg.gc_wait_time + 2) 1 0 0 [] with
    | none => none
    | some (true, slept, cs) =>
      some (Cmd.find_pools_over (100 - cfg.required_memory) none ::
              Cmd.run_gc ((get_memory (pools 0)).map Prod.fst) :: cs, none, slept)
    | some (false, slept, cs) =>
      some (Cmd.find_pools_over (100 - cfg.required_memory) none ::
              Cmd.run_gc ((get_memory (pools 0)).map Prod.fst) :: cs,
            some (.insufficientMemory ((get_memory (pools 0)).map Prod.fst)), slept)
  else
    some ([Cmd.find_pools_over (100 - cfg.required_memory) none],
          some (.insufficientMemory ((get_memory (pools 0)).map Prod.fst)), 0)

/-! ## Convergence poller (`_wait_for_apps`) -/

/-- Whether one context is "ok" in a snapshot: present, `coherent` not
`False`, and `stateName == 'STARTED'` (a missing context raises `KeyError`,
caught and counted as failed). -/
def ctxOk : Option AppStatus → Bool
  | none => false
  | some s => s.coherent && s.stateName == "STARTED"

/-- The `failed_apps` list computed by one poll iteration over snapshot
`reads j`. -/
def failedAppsAt (reads : Nat → List (String × AppStatus)) (ctxList : List String)
    (j : Nat) : List String :=
  ctxList.filter (fun ctx => !(ctxOk (lookupCtx (reads j) ctx)))

/-- The possible outcomes of `_wait_for_apps`: the returned `failed_apps`
together with the number of status reads and sleeps performed, or the
`NameError` crash of `return failed_apps` when the loop body never ran. -/
inductive WaitRet where
  | nameErr
  | done (failed : List String) (readsCount sleeps : Nat)
deriving DecidableEq

/-- The `while wait_total < self.deploy_wait_time` loop of
`_wait_for_apps`.  `j` counts the completed status reads, `last` holds the
`failed_apps` of the previous iteration (none before the first).  `none`
models non-termination. -/
def waitLoop (reads : Nat → List (String × AppStatus)) (ctxList : List String)
    (deployWait poll : Nat) :
    Nat → Nat → Nat → Option (List String) → Option WaitRet
  | 0, _, _, _ => none
  | fuel + 1, waitTotal, j, last =>
    if waitTotal < deployWait then
      let failed := failedAppsAt reads ctxList j
      if failed.isEmpty then some (.done failed (j + 1) j)
      else waitLoop reads ctxList deployWait poll fuel (waitTotal + poll) (j + 1) (some failed)
    else
      match last with
      | some f => some (.done f j j)
      | none => some .nameErr

def wait_for_apps (reads : Nat → List (String × AppStatus)) (ctxList : List String)
    (deployWait poll : Nat) : Option WaitRet :=
  waitLoop reads ctxList deployWait poll (deployWait + 1) 0 0 none

/-! ## Orchestrator (`deploy`, `undeploy`) -/

/-- The memory step of `deploy`: `_check_memory` when `check_memory` is
configured, otherwise nothing. -/
def memPhase (w : World) (cfg : Config) : Option (List Cmd × Option DeployError × Nat) :=
  if cfg.check_memory then check_memory_run w.pools cfg else some ([], none, 0)

/-- `undeploy`: one cluster-wide `undeploy` command per context, in order. -/
def undeploy_run (ctxList : List String) : List Cmd :=
  ctxList.map Cmd.undeploy_cmd

/-- `deploy`: conflict resolution, then the memory guard, then one
`deploy` command per unit, then the convergence poller; on a non-empty
failed set, roll back (when configured) and raise `DeploymentFailed`.
The result is the full command trace paired with the raised error, if any;
`none` models non-termination of a polling loop. -/
def deploy_run (w : World) (cfg : Config) (apps : List NewApp) :
    Option (List Cmd × Option DeployError) :=
  match clean_old_apps w.reads cfg.kill_sessions apps with
  | (st1, some e) => some (st1.cmds, some e)
  | (st1, none) =>
    match memPhase w cfg with
    | none => none
    | some (mcmds, some e, _) => some (st1.cmds ++ mcmds, some e)
    | some (mcmds, none, _) =>
      let dcmds := apps.map (fun a => Cmd.deploy_cmd a.file a.ctx)
      let ctxList := apps.map NewApp.ctx
      match wait_for_apps (fun j => w.reads (st1.readIdx + j)) ctxList
          cfg.deploy_wait_time cfg.poll_interval with
      | none => none
      | some .nameErr => some (st1.cmds ++ mcmds ++ dcmds, some .nameError)
      | some (.done failed _ _) =>
        if failed.isEmpty then some (st1.cmds ++ mcmds ++ dcmds, none)
        else
          let ucmds := if cfg.undeploy_on_error then undeploy_run ctxList else []
          some (st1.cmds ++ mcmds ++ dcmds ++ ucmds, some (.deploymentFailed failed))

/-! ## Concrete scenarios

Small worlds used to evaluate the deployer on explicit inputs. -/

/-- One existing context `/app##v2` serving `/app`, cluster-wide. -/
def worldOneVersion : World :=
  ⟨fun _ => [("/app##v2", ⟨"/app", true, "STARTED", ["n1"], [("n1", "/app")]⟩)],
   fun _ => []⟩

/-- Two existing contexts `/app##v2` and `/app##v3` serving `/app`. -/
def worldTwoVersions : World :=
  ⟨fun _ => [("/app##v2", ⟨"/app", true, "STARTED", ["n1"], [("n1", "/app")]⟩),
             ("/app##v3", ⟨"/app", true, "STARTED", ["n1"], [("n1", "/app")]⟩)],
   fun _ => []⟩

/-- `/app` is served on node `n1` according to the per-node detail, but no
context's aggregated `path` is `/app`: a partial-cluster deployment. -/
def worldPartial : World :=
  ⟨fun _ => [("/other", ⟨"/zzz", true, "STARTED", ["n1"], [("n1", "/app")]⟩)],
   fun _ => []⟩

/-- An existing unversioned context `/bold` on path `/b`, and an existing
context named `/a`. -/
def worldCollision : World :=
  ⟨fun _ => [("/bold", ⟨"/b", true, "STARTED", ["n1"], [("n1", "/b")]⟩),
             ("/a", ⟨"/a", true, "STARTED", ["n1"], [("n1", "/a")]⟩)],
   fun _ => []⟩

/-- A batch whose first unit collides on path `/b` (unversioned) and whose
second unit collides on context `/a`. -/
def appsCollision : List NewApp :=
  [⟨"f1", "/b##v1", "/b", none⟩, ⟨"f2", "/a", "/anew", some "v1"⟩]

/-- An empty cluster that never reports any application. -/
def worldEmpty : World := ⟨fun _ => [], fun _ => []⟩

/-- A cluster where `/a` is already coherent and `STARTED` on every read. -/
def worldStarted : World :=
  ⟨fun _ => [("/a", ⟨"/a", true, "STARTED", ["n1"], [("n1", "/a")]⟩)], fun _ => []⟩

/-- A single proposed unit `/a`. -/
def appsOne : List NewApp := [⟨"f", "/a", "/a", none⟩]

/-- The Memory Guard scenario configuration of the spec:
`gcWaitSec=10, pollIntervalSec=5`, `autoGC=true`, other options default. -/
def cfgGC : Config := { gc_wait_time := 10, poll_interval := 5 }

/-- A convergence test configuration: `deployWaitSec=10, pollIntervalSec=5`,
memory checking off. -/
def cfgWait : Config := { deploy_wait_time := 10, poll_interval := 5, check_memory := false }

/-- Node `n1` always reports the non-noise pool `CMS Old Gen` over
threshold. -/
def poolsAlwaysLow : Nat → List (String × List String) := fun _ => [("n1", ["CMS Old Gen"])]

/-- Node `n1` is over threshold on the first two queries and recovered
from the third one on. -/
def poolsRecover : Nat → List (String × List String) :=
  fun k => if k ≤ 1 then [("n1", ["CMS Old Gen"])] else []

/-- A per-node pool report where `n1` exceeds the threshold only in the
young-generation noise pools and `n2` in a real pool. -/
def poolsNoise : List (String × List String) :=
  [("n1", ["Par Eden Space", "Par Survivor Space"]), ("n2", ["CMS Old Gen"])]

/-- A status snapshot with two applications on distinct paths. -/
def statsTwoApps : List (String × AppStatus) :=
  [("/a", ⟨"/a", true, "STARTED", ["n1"], [("n1", "/a")]⟩),
   ("/b##v1", ⟨"/b", true, "STARTED", ["n1", "n2"], [("n1", "/b"), ("n2", "/b")]⟩)]

/-! ## Proof development -/

theorem pyStrLtAux_irrefl : ∀ as : List Char, pyStrLtAux as as = false := by
  intro as
  induction as with
  | nil => rfl
  | cons a t ih => simp [pyStrLtAux, ih]

theorem pyStrLtAux_asymm :
    ∀ as bs : List Char, pyStrLtAux as bs = true → pyStrLtAux bs as = false := by
  intro as
  induction as with
  | nil =>
    intro bs h
    cases bs with
    | nil => simp [pyStrLtAux] at h
    | cons b t => rfl
  | cons a t ih =>
    intro bs h
    cases bs with
    | nil => simp [pyStrLtAux] at h
    | cons b s =>
      simp only [pyStrLtAux] at h ⊢
      by_cases hab : a.toNat < b.toNat
      · have hba : ¬ b.toNat < a.toNat := by omega
        simp [hab, hba]
      · by_cases hba : b.toNat < a.toNat
        · simp [hab, hba] at h
        · simp [hab, hba] at h ⊢
          exact ih s h

theorem pyStrLtAux_cotrans :
    ∀ cs as bs : List Char, pyStrLtAux cs as = true →
      pyStrLtAux cs bs = true ∨ pyStrLtAux bs as = true := by
  intro cs
  induction cs with
  | nil =>
    intro as bs h
    cases as with
    | nil => simp [pyStrLtAux] at h
    | cons a t =>
      cases bs with
      | nil => right; rfl
      | cons b s => left; rfl
  | cons c cs' ih =>
    intro as bs h
    cases as with
    | nil => simp [pyStrLtAux] at h
    | cons a as' =>
      cases bs with
      | nil => right; rfl
      | cons b bs' =>
        simp only [pyStrLtAux] at h ⊢
        by_cases hca : c.toNat < a.toNat
        · by_cases hcb : c.toNat < b.toNat
          · left; simp [hcb]
          · right
            have hba : b.toNat < a.toNat := by omega
            simp [hba]
        · by_cases hac : a.toNat < c.toNat
          · simp [hca, hac] at h
          · -- heads of cs and as agree, recursion on the tails
            simp [hca, hac] at h
            by_cases hcb : c.toNat < b.toNat
            · left; simp [hcb]
            · by_cases hbc : b.toNat < c.toNat
              · right
                have hba : b.toNat < a.toNat := by omega
                simp [hba]
              · rcases ih as' bs' h with h1 | h1
                · left; simp [hcb, hbc, h1]
                · right
                  have h2 : ¬ b.toNat < a.toNat := by omega
                  have h3 : ¬ a.toNat < b.toNat := by omega
                  simp [h2, h3, h1]

theorem pyLeP_refl (a : String) : pyLeP a a := pyStrLtAux_irrefl a.data

instance : IsTotal String pyLeP where
  total a b := by
    unfold pyLeP
    by_cases h : pyStrLtAux b.data a.data = true
    · right; exact pyStrLtAux_asymm _ _ h
    · left; simpa using h

instance : IsTrans String pyLeP where
  trans a b c hab hbc := by
    unfold pyLeP at hab hbc ⊢
    by_cases h : pyStrLtAux c.data a.data = true
    · rcases pyStrLtAux_cotrans c.data a.data b.data h with h1 | h1
      · rw [hbc] at h1; cases h1
      · rw [hab] at h1; cases h1
    · simpa using h

theorem sorted_le_getLastD :
    ∀ (l : List String) (d x : String), l.Sorted pyLeP → x ∈ l →
      pyLeP x (l.getLastD d) := by
  intro l
  induction l with
  | nil => intro d x _ hx; cases hx
  | cons a t ih =>
    intro d x hs hx
    have hrel : ∀ y ∈ t, pyLeP a y := (List.sorted_cons.mp hs).1
    have hst : t.Sorted pyLeP := (List.sorted_cons.mp hs).2
    rw [List.getLastD_cons]
    rcases List.mem_cons.mp hx with h1 | h1
    · subst h1
      rcases List.mem_cons.mp (List.getLastD_mem_cons t x) with h2 | h2
      · rw [h2]; exact pyLeP_refl x
      · exact hrel _ h2
    · exact ih a x hst h1

theorem latestOf_max (ctx : String) (bucket : List String) :
    ∀ x ∈ ctx :: bucket, pyLeP x (latestOf ctx bucket) := by
  intro x hx
  have hmem : x ∈ pySorted (ctx :: bucket) :=
    (List.mem_insertionSort pyLeP).mpr hx
  have hs : (pySorted (ctx :: bucket)).Sorted pyLeP :=
    List.sorted_insertionSort pyLeP (ctx :: bucket)
  exact sorted_le_getLastD _ ctx x hs hmem

theorem latestOf_mem (ctx : String) (bucket : List String) :
    latestOf ctx bucket ∈ ctx :: bucket := by
  unfold latestOf
  rcases List.mem_cons.mp (List.getLastD_mem_cons (pySorted (ctx :: bucket)) ctx) with h | h
  · rw [h]; exact List.mem_cons_self _ _
  · exact (List.mem_insertionSort pyLeP).mp h

/-- In an association list with distinct keys, a key determines its value. -/
theorem keys_nodup_eq {α β : Type} :
    ∀ (l : List (α × β)) (k : α) (a b : β),
      (l.map Prod.fst).Nodup → (k, a) ∈ l → (k, b) ∈ l → a = b := by
  intro l
  induction l with
  | nil => intro k a b _ ha; cases ha
  | cons hd t ih =>
    intro k a b hnd ha hb
    rw [List.map_cons, List.nodup_cons] at hnd
    rcases List.mem_cons.mp ha with h1 | h1
    · rcases List.mem_cons.mp hb with h2 | h2
      · rw [← h1] at h2
        exact ((Prod.ext_iff.mp h2).2).symm
      · exfalso
        apply hnd.1
        have hk : k ∈ t.map Prod.fst := by simpa using List.mem_map_of_mem Prod.fst h2
        rw [← h1]
        exact hk
    · rcases List.mem_cons.mp hb with h2 | h2
      · exfalso
        apply hnd.1
        have hk : k ∈ t.map Prod.fst := by simpa using List.mem_map_of_mem Prod.fst h1
        rw [← h2]
        exact hk
      · exact ih k a b hnd.2 h1 h2

/-- Membership in a `paths` bucket, characterised on the snapshot. -/
theorem mem_pathsOf {stats : List (String × AppStatus)} {p ctx : String} :
    ctx ∈ pathsOf stats p ↔ ∃ a : AppStatus, (ctx, a) ∈ stats ∧ a.path = p := by
  unfold pathsOf
  constructor
  · intro h
    rcases List.mem_map.mp h with ⟨ad, had, hfst⟩
    rcases List.mem_filter.mp had with ⟨hmem, hpred⟩
    refine ⟨ad.2, ?_, eq_of_beq hpred⟩
    rw [show (ctx, ad.2) = ad from by rw [← hfst]]
    exact hmem
  · rintro ⟨a, hmem, hpath⟩
    exact List.mem_map.mpr ⟨(ctx, a), List.mem_filter.mpr ⟨hmem, by simp [hpath]⟩, rfl⟩

/-- Claim C2: the "latest version" selected by the conflict resolver is
the greatest context string under lexicographic (Python string) ordering:
it dominates every context serving the path and is one of them; for the
pair "v9" / "v10" the lexicographic tie-break selects "v9", not "v10". -/
theorem latest_is_lexicographic_max :
    (∀ ctx bucket, ∀ x ∈ ctx :: bucket, pyLeP x (latestOf ctx bucket)) ∧
    (∀ ctx bucket, latestOf ctx bucket ∈ ctx :: bucket) ∧
    (pySorted ["v9", "v10"]).getLastD "" = "v9" :=
  ⟨latestOf_max, latestOf_mem, by decide⟩

/-- Witness for C2 at a concrete pair of versioned contexts. -/
theorem latest_is_lexicographic_max_witness :
    pyLeP "v10" (latestOf "v10" ["v9"]) ∧ pyLeP "v9" (latestOf "v10" ["v9"]) :=
  ⟨latest_is_lexicographic_max.1 "v10" ["v9"] "v10" (by decide),
   latest_is_lexicographic_max.1 "v10" ["v9"] "v9" (by decide)⟩

/-- Claim C8: a node all of whose over-threshold pool entries are noise
pools (the young-generation spaces) never appears in the memory-shortage
result of `_get_memory`, whatever raw report the threshold query
produced. -/
theorem noise_only_node_excluded (rv : List (String × List String))
    (node : String) (pools : List String)
    (hnodup : (rv.map Prod.fst).Nodup)
    (hmem : (node, pools) ∈ rv)
    (hnoise : ∀ q ∈ pools, q ∈ ignore_pools) :
    node ∉ (get_memory rv).map Prod.fst := by
  intro hin
  rcases List.mem_map.mp hin with ⟨kv, hkv, hfst⟩
  rcases List.mem_filter.mp hkv with ⟨hkvrv, hpred⟩
  have hkveq : kv = (node, kv.2) := by rw [← hfst]
  have hsnd : kv.2 = pools := by
    refine keys_nodup_eq rv node kv.2 pools hnodup ?_ hmem
    rw [← hkveq]
    exact hkvrv
  rw [hsnd] at hpred
  have hfe : pools.filter (fun x => !(decide (x ∈ ignore_pools))) = [] := by
    apply List.filter_eq_nil_iff.mpr
    intro x hx
    simp [hnoise x hx]
  rw [hfe] at hpred
  simp at hpred

/-- Witness for C8: node n1 reports only the two noise pools over
threshold and is excluded from the shortage result. -/
theorem noise_only_node_excluded_witness :
    "n1" ∉ (get_memory poolsNoise).map Prod.fst :=
  noise_only_node_excluded poolsNoise "n1" ["Par Eden Space", "Par Survivor Space"]
    (by decide) (by decide) (by decide)

/-- Claim C9: in the views built by `_get_webapps` from one snapshot,
every context of the status dictionary lies in exactly one `paths`
bucket — the bucket of its aggregated path. -/
theorem byPath_unique_bucket (stats : List (String × AppStatus))
    (hnodup : (stats.map Prod.fst).Nodup) :
    ∀ ctx a, (ctx, a) ∈ stats → ∃! p, ctx ∈ pathsOf stats p := by
  intro ctx a hmem
  refine ⟨a.path, mem_pathsOf.mpr ⟨a, hmem, rfl⟩, ?_⟩
  intro q hq
  rcases mem_pathsOf.mp hq with ⟨b, hbmem, hbpath⟩
  rw [← hbpath, keys_nodup_eq stats ctx b a hnodup hbmem hmem]

/-- Witness for C9 on a concrete two-application snapshot. -/
theorem byPath_unique_bucket_witness :
    ∃! p, "/b##v1" ∈ pathsOf statsTwoApps p :=
  byPath_unique_bucket statsTwoApps (by decide) "/b##v1"
    ⟨"/b", true, "STARTED", ["n1", "n2"], [("n1", "/b"), ("n2", "/b")]⟩ (by decide)

/-- Claim C3 (code bug): on a unit whose path appears in the per-node
`all_paths` view but not in the coherent `paths` view, the resolver's
raise statement evaluates `paths[path]` while formatting its message and
crashes with an untyped `KeyError` instead of raising the intended
`TomcatError`. -/
theorem partial_deployment_keyerror :
    clean_old_apps worldPartial.reads false [⟨"f", "/app##v1", "/app", some "v1"⟩] =
      (⟨1, []⟩, some (.keyError "/app")) ∧
    (allPathNodes (worldPartial.reads 0) "/app").isEmpty = false ∧
    pathsOf (worldPartial.reads 0) "/app" = [] :=
  ⟨rfl, rfl, rfl⟩

/-- Claim C1 counterexample: a versioned unit whose path is served by
exactly one existing context — a strictly newer one — produces no failure
at all: the resolver returns successfully instead of raising
`SupersededByNewerVersion`. -/
theorem single_newer_version_not_superseded :
    clean_old_apps worldOneVersion.reads false [⟨"f", "/app##v1", "/app", some "v1"⟩] =
      (⟨1, []⟩, none) ∧
    pathsOf (worldOneVersion.reads 0) "/app" = ["/app##v2"] ∧
    pyStrLtAux ("/app##v1").data ("/app##v2").data = true :=
  ⟨rfl, rfl, by decide⟩

/-- Claim C1 (amended): for a versioned unit whose path is served by
existing contexts, the resolver raises `SupersededByNewerVersion` (naming
the newer context) exactly in the regime where at least two existing
contexts serve the path and the proposed context is not the
lexicographically latest; when exactly one existing context serves the
path, the version comparison is skipped entirely and no failure occurs. -/
theorem superseded_check (reads : Nat → List (String × AppStatus)) (kill : Bool)
    (fn ctx p v : String)
    (hctx : lookupCtx (reads 0) ctx = none)
    (hall : (allPathNodes (reads 0) p).isEmpty = false) :
    (2 ≤ (pathsOf (reads 0) p).length → ctx ≠ latestOf ctx (pathsOf (reads 0) p) →
      clean_old_apps reads kill [⟨fn, ctx, p, some v⟩] =
        (⟨1, []⟩, some (.superseded (latestOf ctx (pathsOf (reads 0) p)) p ctx))) ∧
    ((pathsOf (reads 0) p).length = 1 →
      clean_old_apps reads kill [⟨fn, ctx, p, some v⟩] = (⟨1, []⟩, none)) := by
  constructor
  · intro hlen hne
    have hbe : (pathsOf (reads 0) p).isEmpty = false := by
      cases h : pathsOf (reads 0) p with
      | nil => rw [h] at hlen; simp at hlen
      | cons x t => rfl
    have hgt : 1 < (pathsOf (reads 0) p).length := by omega
    simp [clean_old_apps, cleanLoop, cleanUnit, hctx, hall, hbe, hgt, hne]
  · intro hlen
    have hbe : (pathsOf (reads 0) p).isEmpty = false := by
      cases h : pathsOf (reads 0) p with
      | nil => rw [h] at hlen; simp at hlen
      | cons x t => rfl
    have hgt : ¬ 1 < (pathsOf (reads 0) p).length := by omega
    simp [clean_old_apps, cleanLoop, cleanUnit, hctx, hall, hbe, hgt]

/-- Witness for C1 (amended): with two existing versions the proposed
older context is refused naming the newest; with one existing version the
same proposed context passes. -/
theorem superseded_check_witness :
    clean_old_apps worldTwoVersions.reads false [⟨"f", "/app##v1", "/app", some "v1"⟩] =
      (⟨1, []⟩, some (.superseded "/app##v3" "/app" "/app##v1")) ∧
    clean_old_apps worldOneVersion.reads false [⟨"f", "/app##v1", "/app", some "v1"⟩] =
      (⟨1, []⟩, none) :=
  ⟨(superseded_check worldTwoVersions.reads false "f" "/app##v1" "/app" "v1" rfl rfl).1
      (by decide) (by decide),
   (superseded_check worldOneVersion.reads false "f" "/app##v1" "/app" "v1" rfl rfl).2
      (by decide)⟩

/-- Claim C6: when every proposed context is coherent and STARTED in the
first snapshot, `_wait_for_apps` returns the empty failed list after
exactly one status read and no sleep (for any positive deadline). -/
theorem wait_for_apps_immediate (reads : Nat → List (String × AppStatus))
    (ctxList : List String) (deployWait poll : Nat)
    (hdw : 0 < deployWait)
    (hok : ∀ ctx ∈ ctxList, ctxOk (lookupCtx (reads 0) ctx) = true) :
    wait_for_apps reads ctxList deployWait poll = some (.done [] 1 0) := by
  have hfe : failedAppsAt reads ctxList 0 = [] := by
    apply List.filter_eq_nil_iff.mpr
    intro ctx hc
    simp [hok ctx hc]
  unfold wait_for_apps waitLoop
  simp [hdw, hfe]

/-- Witness for C6 on a concrete started cluster. -/
theorem wait_for_apps_immediate_witness :
    wait_for_apps worldStarted.reads ["/a"] 30 5 = some (.done [] 1 0) :=
  wait_for_apps_immediate worldStarted.reads ["/a"] 30 5 (by decide) (by decide)

/-- With a positive poll interval and enough fuel, the polling loop of
`_wait_for_apps` terminates and returns the `failed_apps` list computed
from its final status read. -/
theorem waitLoop_total (reads : Nat → List (String × AppStatus)) (ctxList : List String)
    (deployWait poll : Nat) (hpoll : 0 < poll) :
    ∀ fuel waitTotal j last,
      0 < fuel → deployWait + 1 ≤ waitTotal + fuel →
      (waitTotal < deployWait ∨
        (1 ≤ j ∧ last = some (failedAppsAt reads ctxList (j - 1)))) →
      ∃ n s, waitLoop reads ctxList deployWait poll fuel waitTotal j last =
          some (.done (failedAppsAt reads ctxList (n - 1)) n s) ∧ 1 ≤ n := by
  intro fuel
  induction fuel with
  | zero =>
    intro waitTotal j last hf _ _
    exact absurd hf (lt_irrefl 0)
  | succ f ih =>
    intro waitTotal j last _ hbound hinv
    by_cases hlt : waitTotal < deployWait
    · by_cases hfe : (failedAppsAt reads ctxList j).isEmpty
      · refine ⟨j + 1, j, ?_, by omega⟩
        have hnil : failedAppsAt reads ctxList j = [] := List.isEmpty_iff.mp hfe
        simp only [waitLoop]
        rw [if_pos hlt]
        simp [hfe, hnil]
      · have h1 : 0 < f := by omega
        have h2 : deployWait + 1 ≤ (waitTotal + poll) + f := by omega
        obtain ⟨n, s, hres, hn⟩ :=
          ih (waitTotal + poll) (j + 1) (some (failedAppsAt reads ctxList j)) h1 h2
            (Or.inr ⟨by omega, by simp⟩)
        refine ⟨n, s, ?_, hn⟩
        simp only [waitLoop]
        rw [if_pos hlt]
        simp only [hfe, if_false, Bool.false_eq_true]
        exact hres
    · rcases hinv with h | ⟨hj, hlast⟩
      · omega
      · refine ⟨j, j, ?_, hj⟩
        simp only [waitLoop]
        rw [if_neg hlt, hlast]

/-- Claim C10: with a positive deadline (and poll interval) the poller
always returns a well-defined failed list — a subset of the proposed
contexts, computed from the final poll iteration alone; with a zero
deadline the loop body never runs and `return failed_apps` references an
unbound local (`NameError`). -/
theorem wait_for_apps_spec (reads : Nat → List (String × AppStatus))
    (ctxList : List String) (deployWait poll : Nat) :
    (0 < deployWait → 0 < poll →
      ∃ n s, wait_for_apps reads ctxList deployWait poll =
          some (.done (failedAppsAt reads ctxList (n - 1)) n s) ∧ 1 ≤ n ∧
          ∀ x ∈ failedAppsAt reads ctxList (n - 1), x ∈ ctxList) ∧
    (deployWait = 0 → wait_for_apps reads ctxList deployWait poll = some .nameErr) := by
  constructor
  · intro hdw hpoll
    obtain ⟨n, s, hres, hn⟩ :=
      waitLoop_total reads ctxList deployWait poll hpoll (deployWait + 1) 0 0 none
        (by omega) (by omega) (Or.inl hdw)
    refine ⟨n, s, hres, hn, ?_⟩
    intro x hx
    exact List.mem_of_mem_filter hx
  · intro h0
    subst h0
    rfl

/-- Claim C10 counterexample: with a positive deadline but a zero poll
interval, the accumulated wait never grows and the loop of
`_wait_for_apps` never terminates (the embedding returns its
non-termination marker), so the claimed "always returns a well-defined
set" needs a positive poll interval as an extra precondition. -/
theorem wait_for_apps_poll_zero :
    wait_for_apps worldEmpty.reads ["/a"] 5 0 = none := rfl

/-- Witness for C10: a context that never appears in status is reported
failed under a positive deadline; a zero deadline crashes. -/
theorem wait_for_apps_spec_witness :
    (∃ n s, wait_for_apps worldEmpty.reads ["/a"] 10 5 =
        some (.done (failedAppsAt worldEmpty.reads ["/a"] (n - 1)) n s) ∧ 1 ≤ n ∧
        ∀ x ∈ failedAppsAt worldEmpty.reads ["/a"] (n - 1), x ∈ ["/a"]) ∧
    wait_for_apps worldEmpty.reads ["/a"] 0 5 = some .nameErr :=
  ⟨(wait_for_apps_spec worldEmpty.reads ["/a"] 10 5).1 (by decide) (by decide),
   (wait_for_apps_spec worldEmpty.reads ["/a"] 0 5).2 rfl⟩

/-- Claim C7: when convergence fails and rollback is configured, `deploy`
issues exactly one `undeploy` command per attempted context — all units of
the batch, after the deploy commands — and raises `DeploymentFailed`
naming the failed contexts; every proposed context absent from every
status snapshot is in the returned failed set. -/
theorem deploy_rollback_on_failure (w : World) (cfg : Config) (apps : List NewApp)
    (st1 : CleanSt) (mcmds : List Cmd) (ms : Nat) (failed : List String) (n s : Nat)
    (hundep : cfg.undeploy_on_error = true)
    (hpoll : 0 < cfg.poll_interval) (hdw : 0 < cfg.deploy_wait_time)
    (hclean : clean_old_apps w.reads cfg.kill_sessions apps = (st1, none))
    (hmem : memPhase w cfg = some (mcmds, none, ms))
    (hwait : wait_for_apps (fun j => w.reads (st1.readIdx + j)) (apps.map NewApp.ctx)
        cfg.deploy_wait_time cfg.poll_interval = some (.done failed n s))
    (hfail : failed ≠ []) :
    deploy_run w cfg apps =
      some (st1.cmds ++ mcmds ++ apps.map (fun a => Cmd.deploy_cmd a.file a.ctx) ++
              undeploy_run (apps.map NewApp.ctx),
            some (.deploymentFailed failed)) ∧
    ∀ ctx ∈ apps.map NewApp.ctx,
      (∀ j, lookupCtx (w.reads (st1.readIdx + j)) ctx = none) → ctx ∈ failed := by
  constructor
  · have hfe : failed.isEmpty = false := by
      cases failed with
      | nil => exact absurd rfl hfail
      | cons x t => rfl
    simp only [deploy_run, hclean, hmem, hwait, hundep]
    simp [hfe]
  · intro ctx hctx habs
    obtain ⟨n2, s2, hres, hn2⟩ :=
      waitLoop_total (fun j => w.reads (st1.readIdx + j)) (apps.map NewApp.ctx)
        cfg.deploy_wait_time cfg.poll_interval hpoll (cfg.deploy_wait_time + 1) 0 0 none
        (by omega) (by omega) (Or.inl hdw)
    unfold wait_for_apps at hwait
    rw [hwait] at hres
    simp only [Option.some.injEq, WaitRet.done.injEq] at hres
    rw [hres.1]
    unfold failedAppsAt
    apply List.mem_filter.mpr
    refine ⟨hctx, ?_⟩
    have habs2 := habs (n2 - 1)
    simp [ctxOk, habs2]

/-- Witness for C7: one unit on an empty cluster that never converges. -/
theorem deploy_rollback_on_failure_witness :
    deploy_run worldEmpty cfgWait appsOne =
      some ([Cmd.deploy_cmd "f" "/a", Cmd.undeploy_cmd "/a"],
            some (.deploymentFailed ["/a"])) ∧
    ∀ ctx ∈ appsOne.map NewApp.ctx,
      (∀ j, lookupCtx (worldEmpty.reads (1 + j)) ctx = none) → ctx ∈ ["/a"] :=
  deploy_rollback_on_failure worldEmpty cfgWait appsOne ⟨1, []⟩ [] 0 ["/a"] 2 2
    rfl (by decide) (by decide) rfl rfl rfl (by decide)

/-- `cleanUnit` raises `ContextCollision` naming the serving nodes as soon
as the proposed context exists in the snapshot. -/
theorem cleanUnit_collision (reads : Nat → List (String × AppStatus)) (kill : Bool)
    (snap0 : List (String × AppStatus)) (u : NewApp) (st : CleanSt) (a : AppStatus)
    (h : lookupCtx snap0 u.ctx = some a) :
    cleanUnit reads kill snap0 u st = (st, some (.contextCollision u.ctx a.presentOn)) := by
  simp [cleanUnit, h]

/-- If some unit of the batch collides on context, `_clean_old_apps`
raises (possibly a different unit's error first). -/
theorem cleanLoop_err_of_collision (reads : Nat → List (String × AppStatus)) (kill : Bool)
    (snap0 : List (String × AppStatus)) :
    ∀ (l : List NewApp) (st : CleanSt),
      (∃ u ∈ l, (lookupCtx snap0 u.ctx).isSome = true) →
      ∃ st2 e, cleanLoop reads kill snap0 st l = (st2, some e) := by
  intro l
  induction l with
  | nil =>
    rintro st ⟨u, hu, _⟩
    cases hu
  | cons v rest ih =>
    rintro st ⟨u, hu, hsome⟩
    rcases hcu : cleanUnit reads kill snap0 v st with ⟨st1, oe⟩
    cases oe with
    | some e =>
      refine ⟨st1, e, ?_⟩
      simp [cleanLoop, hcu]
    | none =>
      rcases List.mem_cons.mp hu with h1 | h1
      · subst h1
        rcases Option.isSome_iff_exists.mp hsome with ⟨a, ha⟩
        rw [cleanUnit_collision reads kill snap0 u st a ha] at hcu
        exact absurd (congrArg Prod.snd hcu) (by simp)
      · obtain ⟨st2, e, hres⟩ := ih st1 ⟨u, h1, hsome⟩
        refine ⟨st2, e, ?_⟩
        simp [cleanLoop, hcu, hres]

/-- `_undeploy_old_versions` only adds session-expiry and
`undeploy_old_versions` commands to the trace. -/
theorem undeploy_old_versions_run_cmds (reads : Nat → List (String × AppStatus))
    (kill : Bool) (p : String) (apps : List String) (st : CleanSt) :
    ∀ c ∈ (undeploy_old_versions_run reads kill p apps st).1.cmds,
      c ∈ st.cmds ∨ isDeployCmd c = false := by
  intro c hc
  have hc2 : c ∈ st.cmds ++ (if kill then apps.map Cmd.expire_sessions else []) ++
      [Cmd.undeploy_old_versions] := by
    have hc3 : c ∈ (afterUndeployOld kill apps st).cmds := by
      unfold undeploy_old_versions_run at hc
      split at hc
      · exact hc
      · split at hc
        · exact hc
        · exact hc
    simpa only [afterUndeployOld] using hc3
  rcases List.mem_append.mp hc2 with h | h
  · rcases List.mem_append.mp h with h1 | h1
    · exact Or.inl h1
    · right
      cases hk : kill with
      | false => rw [hk] at h1; simp at h1
      | true =>
        rw [hk] at h1
        simp only [if_true] at h1
        rcases List.mem_map.mp h1 with ⟨x, _, hx⟩
        rw [← hx]
        rfl
  · right
    rw [List.mem_singleton.mp h]
    rfl

/-- `cleanUnit` never issues a deploy command. -/
theorem cleanUnit_cmds (reads : Nat → List (String × AppStatus)) (kill : Bool)
    (snap0 : List (String × AppStatus)) (u : NewApp) (st : CleanSt) :
    ∀ c ∈ (cleanUnit reads kill snap0 u st).1.cmds, c ∈ st.cmds ∨ isDeployCmd c = false := by
  intro c hc
  unfold cleanUnit at hc
  split at hc
  · exact Or.inl hc
  · split at hc
    · exact Or.inl hc
    · split at hc
      · split at hc
        · exact Or.inl hc
        · exact Or.inl hc
      · split at hc
        · exact Or.inl hc
        · split at hc
          · split at hc
            · exact undeploy_old_versions_run_cmds reads kill u.path
                (oldAppsOf (pathsOf snap0 u.path)) st c hc
            · exact Or.inl hc
          · exact Or.inl hc

/-- The whole resolver never issues a deploy command. -/
theorem cleanLoop_cmds (reads : Nat → List (String × AppStatus)) (kill : Bool)
    (snap0 : List (String × AppStatus)) :
    ∀ (l : List NewApp) (st st2 : CleanSt) (r : Option DeployError),
      cleanLoop reads kill snap0 st l = (st2, r) →
      (∀ c ∈ st.cmds, isDeployCmd c = false) →
      ∀ c ∈ st2.cmds, isDeployCmd c = false := by
  intro l
  induction l with
  | nil =>
    intro st st2 r hres hst c hc
    simp only [cleanLoop, Prod.mk.injEq] at hres
    rw [← hres.1] at hc
    exact hst c hc
  | cons v rest ih =>
    intro st st2 r hres hst c hc
    rcases hcu : cleanUnit reads kill snap0 v st with ⟨st1, oe⟩
    have hst1 : ∀ c2 ∈ st1.cmds, isDeployCmd c2 = false := by
      intro c2 hc2
      rcases cleanUnit_cmds reads kill snap0 v st c2 (by rw [hcu]; exact hc2) with h | h
      · exact hst c2 h
      · exact h
    cases oe with
    | some e =>
      simp only [cleanLoop, hcu, Prod.mk.injEq] at hres
      rw [← hres.1] at hc
      exact hst1 c hc
    | none =>
      simp only [cleanLoop, hcu] at hres
      exact ih st1 st2 r hres hst1 c hc

/-- Units that pass their checks only advance the resolver's state: the
loop over a batch prefix composes with the loop over the remainder. -/
theorem cleanLoop_append (reads : Nat → List (String × AppStatus)) (kill : Bool)
    (snap0 : List (String × AppStatus)) :
    ∀ (pre l : List NewApp) (st stPre : CleanSt),
      cleanLoop reads kill snap0 st pre = (stPre, none) →
      cleanLoop reads kill snap0 st (pre ++ l) = cleanLoop reads kill snap0 stPre l := by
  intro pre
  induction pre with
  | nil =>
    intro l st stPre h
    simp only [cleanLoop, Prod.mk.injEq] at h
    rw [List.nil_append, h.1]
  | cons v t ih =>
    intro l st stPre h
    rcases hcu : cleanUnit reads kill snap0 v st with ⟨st1, oe⟩
    cases oe with
    | some e => simp [cleanLoop, hcu] at h
    | none =>
      have h2 : cleanLoop reads kill snap0 st1 t = (stPre, none) := by
        simpa [cleanLoop, hcu] using h
      simp only [List.cons_append, cleanLoop, hcu]
      exact ih l st1 stPre h2

/-- Claim C5 (amended): whenever some proposed unit's context already
exists cluster-wide, `deploy` fails before issuing any deploy command; the
failure is `ContextCollision` naming the nodes serving the context
whenever the colliding unit is the first conflicting unit in iteration
order (every earlier unit passes its checks) — in particular for every
single-unit deploy — while in a larger batch an earlier unit's conflict
error may be raised instead. -/
theorem deploy_context_collision (w : World) (cfg : Config) :
    (∀ apps : List NewApp, (∃ u ∈ apps, (lookupCtx (w.reads 0) u.ctx).isSome = true) →
      ∃ cs e, deploy_run w cfg apps = some (cs, some e) ∧
        ∀ c ∈ cs, isDeployCmd c = false) ∧
    (∀ (pre rest : List NewApp) (u : NewApp) (stPre : CleanSt) (a : AppStatus),
      cleanLoop w.reads cfg.kill_sessions (w.reads 0) ⟨1, []⟩ pre = (stPre, none) →
      lookupCtx (w.reads 0) u.ctx = some a →
      deploy_run w cfg (pre ++ u :: rest) =
        some (stPre.cmds, some (.contextCollision u.ctx a.presentOn)) ∧
      ∀ c ∈ stPre.cmds, isDeployCmd c = false) := by
  constructor
  · intro apps hex
    obtain ⟨st2, e, hres⟩ :=
      cleanLoop_err_of_collision w.reads cfg.kill_sessions (w.reads 0) apps ⟨1, []⟩ hex
    have hclean : clean_old_apps w.reads cfg.kill_sessions apps = (st2, some e) := hres
    refine ⟨st2.cmds, e, ?_, ?_⟩
    · simp [deploy_run, hclean]
    · exact cleanLoop_cmds w.reads cfg.kill_sessions (w.reads 0) apps ⟨1, []⟩ st2 (some e)
        hres (by intro c hc; cases hc)
  · intro pre rest u stPre a hpre ha
    have hu : cleanUnit w.reads cfg.kill_sessions (w.reads 0) u stPre =
        (stPre, some (.contextCollision u.ctx a.presentOn)) :=
      cleanUnit_collision w.reads cfg.kill_sessions (w.reads 0) u stPre a ha
    have hclean : clean_old_apps w.reads cfg.kill_sessions (pre ++ u :: rest) =
        (stPre, some (.contextCollision u.ctx a.presentOn)) := by
      unfold clean_old_apps
      rw [cleanLoop_append w.reads cfg.kill_sessions (w.reads 0) pre (u :: rest) ⟨1, []⟩
            stPre hpre]
      simp [cleanLoop, hu]
    constructor
    · simp [deploy_run, hclean]
    · exact cleanLoop_cmds w.reads cfg.kill_sessions (w.reads 0) pre ⟨1, []⟩ stPre none
        hpre (by intro c hc; cases hc)

/-- Claim C5 counterexample: in a two-unit batch whose second unit's
context `/a` already exists cluster-wide, `deploy` fails with the first
unit's path-collision error, not with `ContextCollision`. -/
theorem context_collision_not_first_error :
    deploy_run worldCollision {} appsCollision =
      some ([], some (.pathCollision "/b" ["/bold"])) ∧
    isContextCollision (.pathCollision "/b" ["/bold"]) = false ∧
    (lookupCtx (worldCollision.reads 0) "/a").isSome = true :=
  ⟨rfl, rfl, rfl⟩

/-- Witness for C5 (amended): a mixed-conflict batch fails with no deploy
command, and a two-unit batch whose conflict-free first unit precedes the
context-colliding unit fails with `ContextCollision` naming the serving
node. -/
theorem deploy_context_collision_witness :
    (∃ cs e, deploy_run worldCollision {} appsCollision = some (cs, some e) ∧
      ∀ c ∈ cs, isDeployCmd c = false) ∧
    (deploy_run worldStarted {} [⟨"f0", "/new", "/new", none⟩, ⟨"f", "/a", "/a", none⟩] =
      some ([], some (.contextCollision "/a" ["n1"])) ∧
      ∀ c ∈ ([] : List Cmd), isDeployCmd c = false) :=
  ⟨(deploy_context_collision worldCollision {}).1 appsCollision
      ⟨⟨"f2", "/a", "/anew", some "v1"⟩, by decide, by decide⟩,
   (deploy_context_collision worldStarted {}).2 [⟨"f0", "/new", "/new", none⟩] []
      ⟨"f", "/a", "/a", none⟩ ⟨1, []⟩ ⟨"/a", true, "STARTED", ["n1"], [("n1", "/a")]⟩ rfl rfl⟩

/-- One unfolding step of the `_wait_for_free_mem` polling loop. -/
theorem wait_free_loop_step (pools : Nat → List (String × List String)) (thr : Nat)
    (hosts : List String) (gw p fuel k wt s : Nat) (cs : List Cmd) :
    wait_free_loop pools thr hosts gw p (fuel + 1) k wt s cs =
      (if (get_memory (pools k)).isEmpty then
        some (true, s, cs ++ [Cmd.find_pools_over thr (some hosts)])
       else if gw < wt then
        some (false, s, cs ++ [Cmd.find_pools_over thr (some hosts)])
       else
        wait_free_loop pools thr hosts gw p fuel (k + 1) (wt + p) (s + p)
          (cs ++ [Cmd.find_pools_over thr (some hosts)])) := rfl

/-- A still-low memory check inside the wait budget sleeps and retries. -/
theorem wait_free_loop_low (pools : Nat → List (String × List String)) (thr : Nat)
    (hosts : List String) (gw p fuel k wt s : Nat) (cs : List Cmd)
    (hlow : (get_memory (pools k)).isEmpty = false) (hwt : ¬ gw < wt) :
    wait_free_loop pools thr hosts gw p (fuel + 1) k wt s cs =
      wait_free_loop pools thr hosts gw p fuel (k + 1) (wt + p) (s + p)
        (cs ++ [Cmd.find_pools_over thr (some hosts)]) := by
  rw [wait_free_loop_step]
  simp [hlow, hwt]

/-- A still-low memory check past the wait budget gives up. -/
theorem wait_free_loop_fail (pools : Nat → List (String × List String)) (thr : Nat)
    (hosts : List String) (gw p fuel k wt s : Nat) (cs : List Cmd)
    (hlow : (get_memory (pools k)).isEmpty = false) (hwt : gw < wt) :
    wait_free_loop pools thr hosts gw p (fuel + 1) k wt s cs =
      some (false, s, cs ++ [Cmd.find_pools_over thr (some hosts)]) := by
  rw [wait_free_loop_step]
  simp [hlow, hwt]

/-- A clear memory check ends the wait successfully. -/
theorem wait_free_loop_clear (pools : Nat → List (String × List String)) (thr : Nat)
    (hosts : List String) (gw p fuel k wt s : Nat) (cs : List Cmd)
    (hclear : (get_memory (pools k)).isEmpty = true) :
    wait_free_loop pools thr hosts gw p (fuel + 1) k wt s cs =
      some (true, s, cs ++ [Cmd.find_pools_over thr (some hosts)]) := by
  rw [wait_free_loop_step]
  simp [hclear]

/-- With `gc_wait_time = 10` and `poll_interval = 5`, a shortage that
never clears runs the wait loop for three sleeps — checks after 0, 5, 10
and 15 seconds of accumulated wait — and fails with 15 seconds slept. -/
theorem wait_free_loop_gc10 (pools : Nat → List (String × List String))
    (hosts : List String)
    (hall : ∀ k, 1 ≤ k → k ≤ 4 → (get_memory (pools k)).isEmpty = false) :
    wait_free_loop pools 50 hosts 10 5 12 1 0 0 [] =
      some (false, 15,
        [Cmd.find_pools_over 50 (some hosts), Cmd.find_pools_over 50 (some hosts),
         Cmd.find_pools_over 50 (some hosts), Cmd.find_pools_over 50 (some hosts)]) := by
  have l1 := wait_free_loop_low pools 50 hosts 10 5 11 1 0 0 []
    (hall 1 (by omega) (by omega)) (by omega)
  have l2 := wait_free_loop_low pools 50 hosts 10 5 10 2 5 5
    [Cmd.find_pools_over 50 (some hosts)] (hall 2 (by omega) (by omega)) (by omega)
  have l3 := wait_free_loop_low pools 50 hosts 10 5 9 3 10 10
    [Cmd.find_pools_over 50 (some hosts), Cmd.find_pools_over 50 (some hosts)]
    (hall 3 (by omega) (by omega)) (by omega)
  have l4 := wait_free_loop_fail pools 50 hosts 10 5 8 4 15 15
    [Cmd.find_pools_over 50 (some hosts), Cmd.find_pools_over 50 (some hosts),
     Cmd.find_pools_over 50 (some hosts)] (hall 4 (by omega) (by omega)) (by omega)
  exact ((l1.trans l2).trans l3).trans l4

/-- Claim C4 counterexample: with `gcWaitSec=10, pollIntervalSec=5` and
memory that never recovers, `_check_memory` raises `InsufficientMemory`
after 15 seconds of accumulated sleep — three poll cycles — not after the
10 seconds (two cycles) the claim states. -/
theorem memory_guard_fifteen_seconds :
    check_memory_run poolsAlwaysLow cfgGC =
      some ([Cmd.find_pools_over 50 none, Cmd.run_gc ["n1"],
             Cmd.find_pools_over 50 (some ["n1"]), Cmd.find_pools_over 50 (some ["n1"]),
             Cmd.find_pools_over 50 (some ["n1"]), Cmd.find_pools_over 50 (some ["n1"])],
            some (.insufficientMemory ["n1"]), 15) ∧
    (15 : Nat) ≠ 10 :=
  ⟨rfl, by decide⟩

/-- Claim C4 (amended): with `autoGC=true`, `gcWaitSec=10` and
`pollIntervalSec=5`, if the non-noise shortage never clears the guard
fails with `InsufficientMemory` naming the initially offending hosts after
15 seconds of accumulated simulated wait (three poll cycles — the loop
re-checks until the accumulated wait strictly exceeds the budget), not
earlier; if the shortage clears at the re-check after `k - 1` sleeps
(`k ≤ 3`, covering recovery within two cycles) it returns success after
`5 * (k - 1)` seconds. -/
theorem memory_guard_budget (pools : Nat → List (String × List String))
    (h0 : (get_memory (pools 0)).isEmpty = false) :
    ((∀ k, (get_memory (pools k)).isEmpty = false) →
      ∃ cs, check_memory_run pools cfgGC =
        some (cs, some (.insufficientMemory ((get_memory (pools 0)).map Prod.fst)), 15)) ∧
    (∀ k, 1 ≤ k → k ≤ 3 →
      (∀ j, 1 ≤ j → j < k → (get_memory (pools j)).isEmpty = false) →
      (get_memory (pools k)).isEmpty = true →
      ∃ cs, check_memory_run pools cfgGC = some (cs, none, 5 * (k - 1))) := by
  constructor
  · intro hall
    have hloop : wait_free_loop pools (100 - cfgGC.required_memory)
        ((get_memory (pools 0)).map Prod.fst) cfgGC.gc_wait_time cfgGC.poll_interval
        (cfgGC.gc_wait_time + 2) 1 0 0 [] =
        some (false, 15,
          [Cmd.find_pools_over 50 (some ((get_memory (pools 0)).map Prod.fst)),
           Cmd.find_pools_over 50 (some ((get_memory (pools 0)).map Prod.fst)),
           Cmd.find_pools_over 50 (some ((get_memory (pools 0)).map Prod.fst)),
           Cmd.find_pools_over 50 (some ((get_memory (pools 0)).map Prod.fst))]) :=
      wait_free_loop_gc10 pools ((get_memory (pools 0)).map Prod.fst)
        (fun k _ _ => hall k)
    have heq : check_memory_run pools cfgGC =
        some (Cmd.find_pools_over 50 none ::
                Cmd.run_gc ((get_memory (pools 0)).map Prod.fst) ::
                [Cmd.find_pools_over 50 (some ((get_memory (pools 0)).map Prod.fst)),
                 Cmd.find_pools_over 50 (some ((get_memory (pools 0)).map Prod.fst)),
                 Cmd.find_pools_over 50 (some ((get_memory (pools 0)).map Prod.fst)),
                 Cmd.find_pools_over 50 (some ((get_memory (pools 0)).map Prod.fst))],
              some (.insufficientMemory ((get_memory (pools 0)).map Prod.fst)), 15) := by
      unfold check_memory_run
      rw [if_neg (by simp [h0]), if_pos (show cfgGC.auto_gc = true from rfl), hloop]
      rfl
    exact ⟨_, heq⟩
  · intro k hk1 hk3 hjs hclear
    interval_cases k
    · have hloop : wait_free_loop pools (100 - cfgGC.required_memory)
          ((get_memory (pools 0)).map Prod.fst) cfgGC.gc_wait_time cfgGC.poll_interval
          (cfgGC.gc_wait_time + 2) 1 0 0 [] =
          some (true, 0,
            [Cmd.find_pools_over 50 (some ((get_memory (pools 0)).map Prod.fst))]) :=
        wait_free_loop_clear pools 50 ((get_memory (pools 0)).map Prod.fst) 10 5 11 1 0 0 []
          hclear
      have heq : check_memory_run pools cfgGC =
          some (Cmd.find_pools_over 50 none ::
                  Cmd.run_gc ((get_memory (pools 0)).map Prod.fst) ::
                  [Cmd.find_pools_over 50 (some ((get_memory (pools 0)).map Prod.fst))],
                none, 0) := by
        unfold check_memory_run
        rw [if_neg (by simp [h0]), if_pos (show cfgGC.auto_gc = true from rfl), hloop]
        rfl
      exact ⟨_, heq⟩
    · have l1 := wait_free_loop_low pools 50 ((get_memory (pools 0)).map Prod.fst) 10 5 11 1 0 0
        [] (hjs 1 (by omega) (by omega)) (by omega)
      have l2 := wait_free_loop_clear pools 50 ((get_memory (pools 0)).map Prod.fst) 10 5 10 2 5 5
        [Cmd.find_pools_over 50 (some ((get_memory (pools 0)).map Prod.fst))] hclear
      have hloop : wait_free_loop pools (100 - cfgGC.required_memory)
          ((get_memory (pools 0)).map Prod.fst) cfgGC.gc_wait_time cfgGC.poll_interval
          (cfgGC.gc_wait_time + 2) 1 0 0 [] =
          some (true, 5,
            [Cmd.find_pools_over 50 (some ((get_memory (pools 0)).map Prod.fst)),
             Cmd.find_pools_over 50 (some ((get_memory (pools 0)).map Prod.fst))]) :=
        l1.trans l2
      have heq : check_memory_run pools cfgGC =
          some (Cmd.find_pools_over 50 none ::
                  Cmd.run_gc ((get_memory (pools 0)).map Prod.fst) ::
                  [Cmd.find_pools_over 50 (some ((get_memory (pools 0)).map Prod.fst)),
                   Cmd.find_pools_over 50 (some ((get_memory (pools 0)).map Prod.fst))],
                none, 5) := by
        unfold check_memory_run
        rw [if_neg (by simp [h0]), if_pos (show cfgGC.auto_gc = true from rfl), hloop]
        rfl
      exact ⟨_, heq⟩
    · have l1 := wait_free_loop_low pools 50 ((get_memory (pools 0)).map Prod.fst) 10 5 11 1 0 0
        [] (hjs 1 (by omega) (by omega)) (by omega)
      have l2 := wait_free_loop_low pools 50 ((get_memory (pools 0)).map Prod.fst) 10 5 10 2 5 5
        [Cmd.find_pools_over 50 (some ((get_memory (pools 0)).map Prod.fst))]
        (hjs 2 (by omega) (by omega)) (by omega)
      have l3 := wait_free_loop_clear pools 50 ((get_memory (pools 0)).map Prod.fst) 10 5 9 3
        10 10
        [Cmd.find_pools_over 50 (some ((get_memory (pools 0)).map Prod.fst)),
         Cmd.find_pools_over 50 (some ((get_memory (pools 0)).map Prod.fst))] hclear
      have hloop : wait_free_loop pools (100 - cfgGC.required_memory)
          ((get_memory (pools 0)).map Prod.fst) cfgGC.gc_wait_time cfgGC.poll_interval
          (cfgGC.gc_wait_time + 2) 1 0 0 [] =
          some (true, 10,
            [Cmd.find_pools_over 50 (some ((get_memory (pools 0)).map Prod.fst)),
             Cmd.find_pools_over 50 (some ((get_memory (pools 0)).map Prod.fst)),
             Cmd.find_pools_over 50 (some ((get_memory (pools 0)).map Prod.fst))]) :=
        (l1.trans l2).trans l3
      have heq : check_memory_run pools cfgGC =
          some (Cmd.find_pools_over 50 none ::
                  Cmd.run_gc ((get_memory (pools 0)).map Prod.fst) ::
                  [Cmd.find_pools_over 50 (some ((get_memory (pools 0)).map Prod.fst)),
                   Cmd.find_pools_over 50 (some ((get_memory (pools 0)).map Prod.fst)),
                   Cmd.find_pools_over 50 (some ((get_memory (pools 0)).map Prod.fst))],
                none, 10) := by
        unfold check_memory_run
        rw [if_neg (by simp [h0]), if_pos (show cfgGC.auto_gc = true from rfl), hloop]
        rfl
      exact ⟨_, heq⟩

/-- Witness for C4 (amended): the never-recovering node fails at 15
seconds; the node that recovers at the second re-check succeeds after one
5-second sleep. -/
theorem memory_guard_budget_witness :
    (∃ cs, check_memory_run poolsAlwaysLow cfgGC =
        some (cs, some (.insufficientMemory ((get_memory (poolsAlwaysLow 0)).map Prod.fst)),
              15)) ∧
    (∃ cs, check_memory_run poolsRecover cfgGC = some (cs, none, 5 * (2 - 1))) :=
  ⟨(memory_guard_budget poolsAlwaysLow rfl).1 (fun _ => rfl),
   (memory_guard_budget poolsRecover rfl).2 2 (by omega) (by omega)
     (fun j h1 h2 => by
        have hj : j = 1 := by omega
        subst hj
        rfl)
     rfl⟩

end Pytomcat
